import Mathlib

/-!
Verification of the tool dispatch / job-polling layer of the repository.

The subsystem under study lives in two revisions of the same component:
  * `archive/mcp_integration/universal_manager.py` and
    `archive/mcp_integration/protocols.py` (the job-polling dispatcher), and
  * `mcp_integration/universal_manager.py`, `mcp_integration/protocols.py`
    and `mcp_integration/tools.py` (the synchronous dispatcher and the
    tool-to-callable bridge).

The embedding is a shallow one: Python dictionaries whose fixed keys the
code reads become structures of `Option`-valued fields (a missing key is
`none`, `dict.get(k, d)` is `Option.getD`), awaited network calls become
explicit outcome parameters (`Except`-style: a returned value or a raised
exception), and the registry (a Python `dict` used in insertion order)
becomes an association list with replace-on-insert semantics.  Time is
modelled discretely: network calls are instantaneous and only the
`asyncio.sleep(poll_interval)` calls advance the clock, measured in
milliseconds as natural numbers.
-/

namespace MCP

/-- `k in d` / `d[k]` on a Python dict rendered as an association list:
the first binding of the key, if any. -/
def regFind? {β : Type} : List (String × β) → String → Option β
  | [], _ => none
  | (k2, v) :: t, k => if k2 = k then some v else regFind? t k

/-- `d[k] = v` on a Python dict rendered as an association list: replace the
existing binding in place, else append the new binding (Python dicts keep
insertion order and keep a replaced key's position). -/
def regInsert {β : Type} (k : String) (v : β) : List (String × β) → List (String × β)
  | [] => [(k, v)]
  | (k2, v2) :: t => if k2 = k then (k, v) :: t else (k2, v2) :: regInsert k v t

/-- Python truthiness of an optional string value (`if not job_id`,
`if tool_name:`): `None` and the empty string are falsy. -/
def falsyStr : Option String → Bool
  | none => true
  | some s => s.isEmpty

/-- Python `s.replace(' ', '_')` (single-character pattern). -/
def replace_spaces (s : String) : String :=
  String.mk (s.data.map fun c => if c = ' ' then '_' else c)

/-- Python `s.lower()`, restricted to ASCII (the server names the code
normalizes are ASCII identifiers). -/
def ascii_lower (s : String) : String :=
  String.mk (s.data.map fun c =>
    if 'A' ≤ c ∧ c ≤ 'Z' then Char.ofNat (c.toNat + 32) else c)

end MCP

namespace MCP.Archive

/-! The job-polling dispatcher,
`archive/mcp_integration/universal_manager.py`. -/

/-- The slice of one tool dictionary the dispatcher reads: `name` and
`description`. -/
structure ToolConfig where
  name : Option String
  description : Option String
deriving Repr, DecidableEq

/-- The slice of the `server_config` dictionary this dispatcher reads:
`id`, `name`, `protocol_type` (`get` with default `'http'`),
`poll_interval` in milliseconds (`get` with default `1000`), and the
cached tool list `tools` (`get` with default `[]`). -/
structure ServerConfig where
  id : Nat
  name : String
  protocol_type : Option String
  poll_interval : Option Nat
  tools : Option (List ToolConfig)
deriving Repr, DecidableEq

/-- One `tool_registry` value: `{"server_config": ..., "tool_config": ...}`. -/
structure RegistryEntry where
  server_config : ServerConfig
  tool_config : ToolConfig
deriving Repr, DecidableEq

/-- The keys of `self.protocol_handlers` built in `__init__`. -/
def knownProtocols : List String := ["http", "sse", "websocket", "stdio"]

/-- The response dictionary of an `await handler.execute_tool(...)`
submission: the dispatcher reads `job_id`, `status` and `data`. -/
structure ExecResponse where
  job_id : Option String
  status : Option String
  data : Option String
deriving Repr, DecidableEq

/-- The submission call either returns a response dictionary or raises
(the archive `HTTPProtocolHandler.execute_tool` propagates network errors
and `raise_for_status`; the websocket/stdio handlers raise
`NotImplementedError`). -/
inductive SubmitStep where
  | ok (resp : ExecResponse)
  | exn (msg : String)
deriving Repr, DecidableEq

/-- The response dictionary of one `await handler.get_result(...)` call:
the dispatcher reads `status`, `data` and `error` (with default
`'Unknown error'`). -/
structure PollResponse where
  status : Option String
  data : Option String
  error : Option String
deriving Repr, DecidableEq

/-- One `get_result` call: a response dictionary, or a raised exception. -/
inductive PollStep where
  | ok (resp : PollResponse)
  | exn (msg : String)
deriving Repr, DecidableEq

/-- How the polling loop exits: `done` is the `return` on status
`'completed'`, `timedOut` covers both the `while` condition failing and the
`break` in the `except` handler (both end in
`raise asyncio.TimeoutError(...)`), and `diverge` is the fuel of the
embedding running out, which `poll_loop_no_diverge` rules out whenever the
poll interval is positive. -/
inductive PollExit where
  | done (data : Option String)
  | timedOut
  | diverge
deriving Repr, DecidableEq

/-- One iteration body of the polling loop, entered after the
`await asyncio.sleep(poll_interval_seconds)` of iteration `k` (so the
elapsed time is `(k+1) * poll_ms` when `g (k+1)` is inspected).

Faithful to `universal_manager.py` lines 111-131: the whole body sits in a
`try` whose `except Exception` prints and then breaks exactly when
`time.time() - start_time >= timeout`.  In particular the
`raise RuntimeError(...)` of the `elif status == 'failed'` branch is itself
caught by that `except` block, so a `failed` status never escapes the loop:
it either breaks into the timeout raise (deadline passed) or keeps polling,
exactly like a raised poll exception. -/
inductive StepRes where
  | exitDone (data : Option String)
  | exitTimeout
  | again
deriving Repr, DecidableEq

def poll_step (g : Nat → PollStep) (timeout_ms poll_ms k : Nat) : StepRes :=
  match g (k + 1) with
  | PollStep.ok resp =>
    if resp.status = some "completed" then StepRes.exitDone resp.data
    else if resp.status = some "failed" then
      -- the raised RuntimeError is swallowed by the except handler
      if timeout_ms ≤ (k + 1) * poll_ms then StepRes.exitTimeout else StepRes.again
    else
      -- 'pending' continues; any other status only logs a warning
      StepRes.again
  | PollStep.exn _ =>
    if timeout_ms ≤ (k + 1) * poll_ms then StepRes.exitTimeout else StepRes.again

/-- The polling loop `while time.time() - start_time < timeout: ...` of
`execute_tool`, in the discrete-time model: after `k` completed iterations
the elapsed time is `k * poll_ms` milliseconds, so the `while` condition is
`k * poll_ms < timeout_ms`.  Returns the exit and the total number of
`get_result` calls made.  `fuel` only bounds the recursion depth of the
embedding; with it exhausted while the `while` condition still holds the
loop of the source would still be running (`PollExit.diverge`). -/
def poll_loop (g : Nat → PollStep) (timeout_ms poll_ms : Nat) :
    Nat → Nat → PollExit × Nat
  | 0, k =>
    if k * poll_ms < timeout_ms then (PollExit.diverge, k)
    else (PollExit.timedOut, k)
  | fuel + 1, k =>
    if k * poll_ms < timeout_ms then
      match poll_step g timeout_ms poll_ms k with
      | StepRes.exitDone d => (PollExit.done d, k + 1)
      | StepRes.exitTimeout => (PollExit.timedOut, k + 1)
      | StepRes.again => poll_loop g timeout_ms poll_ms fuel (k + 1)
    else (PollExit.timedOut, k)

/-- What `UniversalMCPDispatcher.execute_tool` does, seen from its caller:
either a value is returned (`ret` for a polled or inline `data` payload,
`retInline` for a non-async response dictionary returned as-is) or an
exception propagates.  `runtimeError` stands for the `RuntimeError` the
source constructs for a `failed` status; `hostError` is a propagated
handler exception re-raised by the outer `except ... raise`. -/
inductive Outcome where
  | ret (data : Option String)
  | retInline (resp : ExecResponse)
  | valueError (msg : String)
  | runtimeError (msg : String)
  | timeoutError (msg : String)
  | hostError (msg : String)
  | diverge
deriving Repr, DecidableEq

/-- Instrumented result of one `execute_tool` call: its outcome, how many
times `handler.execute_tool` was awaited (the submission), and how many
times `handler.get_result` was awaited (the polls). -/
structure ExecTrace where
  outcome : Outcome
  submits : Nat
  polls : Nat
deriving Repr, DecidableEq

/-- `UniversalMCPDispatcher.execute_tool(tool_name, params, timeout)`
(archive revision, lines 68-137).  `reg` is `self.tool_registry`,
`timeout_s` the timeout argument in seconds, `submit` the behaviour of the
one `handler.execute_tool` submission and `g n` the behaviour of the `n`-th
`handler.get_result` poll.  The `params` argument is forwarded verbatim
into `submit` and never inspected, so it is folded into `submit`. -/
def execute_tool (reg : List (String × RegistryEntry)) (tool_name : String)
    (timeout_s : Nat) (submit : SubmitStep) (g : Nat → PollStep) : ExecTrace :=
  match MCP.regFind? reg tool_name with
  | none =>
    ⟨Outcome.valueError ("Tool '" ++ tool_name ++ "' not found in registry."), 0, 0⟩
  | some entry =>
    let protocol_type := entry.server_config.protocol_type.getD "http"
    if protocol_type ∈ knownProtocols then
      match submit with
      | SubmitStep.exn m => ⟨Outcome.hostError m, 1, 0⟩
      | SubmitStep.ok resp =>
        if MCP.falsyStr resp.job_id then
          if resp.status = some "completed" then ⟨Outcome.ret resp.data, 1, 0⟩
          else if resp.status = some "accepted" then
            ⟨Outcome.valueError
              "MCP server returned 'accepted' status but no job_id for polling.", 1, 0⟩
          else ⟨Outcome.retInline resp, 1, 0⟩
        else
          let poll_ms := entry.server_config.poll_interval.getD 1000
          let timeout_ms := timeout_s * 1000
          match poll_loop g timeout_ms poll_ms (timeout_ms + 1) 0 with
          | (PollExit.done d, polls) => ⟨Outcome.ret d, 1, polls⟩
          | (PollExit.timedOut, polls) =>
            ⟨Outcome.timeoutError ("Polling for tool '" ++ tool_name ++
              "' timed out after " ++ toString timeout_s ++ " seconds."), 1, polls⟩
          | (PollExit.diverge, polls) => ⟨Outcome.diverge, 1, polls⟩
    else
      ⟨Outcome.valueError ("No protocol handler found for type '" ++
        protocol_type ++ "'"), 0, 0⟩

/-- The registration name of `initialize_tools` (archive revision, line 49):
`f"{server['name'].replace(' ', '_')}_{tool_name}"` — every tool is
registered under a server-prefixed name. -/
def registered_name (srv : ServerConfig) (tool_name : String) : String :=
  MCP.replace_spaces srv.name ++ "_" ++ tool_name

/-- The registration loop of `initialize_tools` over one server's tool
list (lines 46-54): tools with a falsy `name` are skipped. -/
def register_tools (srv : ServerConfig) (tools : List ToolConfig)
    (reg : List (String × RegistryEntry)) : List (String × RegistryEntry) :=
  tools.foldl
    (fun r tool =>
      if MCP.falsyStr tool.name then r
      else MCP.regInsert (registered_name srv (tool.name.getD "")) ⟨srv, tool⟩ r)
    reg

/-- One server's `discover_tools` call: the `tools` entry of the returned
manifest (`discovered.get('tools', [])`), or a raised exception. -/
inductive DiscStep where
  | ok (tools : List ToolConfig)
  | exn (msg : String)
deriving Repr, DecidableEq

/-- The per-server body of `initialize_tools` (archive revision, lines
28-64), acting on the accumulated `(tool_registry, status updates)` pair.
A missing handler for the protocol type skips the server; a discovery
exception is caught by the per-server `except`, which records an `'error'`
status and moves on; empty discovery falls back to the server's cached
`tools` list; a nonempty effective tool list records a `'connected'`
status. -/
def init_step (acc : List (String × RegistryEntry) × List (Nat × String))
    (p : ServerConfig × DiscStep) :
    List (String × RegistryEntry) × List (Nat × String) :=
  if (p.1.protocol_type.getD "http") ∈ knownProtocols then
    match p.2 with
    | DiscStep.exn _ => (acc.1, acc.2 ++ [(p.1.id, "error")])
    | DiscStep.ok discovered =>
      let tools := if discovered.isEmpty then p.1.tools.getD [] else discovered
      let reg2 := register_tools p.1 tools acc.1
      if tools.isEmpty then (reg2, acc.2) else (reg2, acc.2 ++ [(p.1.id, "connected")])
  else acc

/-- `UniversalMCPDispatcher.initialize_tools` (archive revision): iterate
`init_step` over the active servers, starting from the empty registry.
Each server is given together with the outcome of its `discover_tools`
call.  Returns the final `tool_registry` and the list of
`update_server_status` writes. -/
def initialize_tools (servers : List (ServerConfig × DiscStep)) :
    List (String × RegistryEntry) × List (Nat × String) :=
  servers.foldl init_step ([], [])

/-- The registry component of `init_step`, which does not depend on the
accumulated status updates. -/
def reg_step (reg : List (String × RegistryEntry)) (p : ServerConfig × DiscStep) :
    List (String × RegistryEntry) :=
  if (p.1.protocol_type.getD "http") ∈ knownProtocols then
    match p.2 with
    | DiscStep.exn _ => reg
    | DiscStep.ok discovered =>
      register_tools p.1 (if discovered.isEmpty then p.1.tools.getD [] else discovered) reg
  else reg

/-- The dispatcher state `execute_tool` can see: `self.tool_registry`
(`self.storage` and `self.protocol_handlers` carry no registry data; the
handlers' behaviour is the `submit`/`g` parameters).  The archive
`execute_tool` body contains no assignment to any `self` attribute, so the
state-threaded embedding returns the state it was given. -/
structure DispatcherState where
  tool_registry : List (String × RegistryEntry)
deriving Repr, DecidableEq

/-- `execute_tool` with the dispatcher state threaded explicitly: the
method reads `self.tool_registry` and returns, leaving the state as the
translation of a body with no writes. -/
def execute_tool_st (st : DispatcherState) (tool_name : String)
    (timeout_s : Nat) (submit : SubmitStep) (g : Nat → PollStep) :
    DispatcherState × ExecTrace :=
  (st, execute_tool st.tool_registry tool_name timeout_s submit g)

end MCP.Archive

namespace MCP.Cur

/-! The current-revision dispatcher, `mcp_integration/universal_manager.py`,
and its protocol handlers / bridge. -/

/-- The slice of one discovered tool dictionary the dispatcher reads:
`tool_name`, `description`, `input_schema`.  The schema is opaque to the
dispatcher and kept as an optional string so that distinct tools stay
distinguishable. -/
structure Tool where
  tool_name : Option String
  description : Option String
  input_schema : Option String
deriving Repr, DecidableEq

/-- The slice of the `server_config` dictionary the current dispatcher
reads: `id`, `name`, `protocol_type` (`get` with default `'sse'`) and
`is_active` (`get` with default `True`). -/
structure ServerConfig where
  id : Nat
  name : String
  protocol_type : Option String
  is_active : Option Bool
deriving Repr, DecidableEq

/-- One `tool_registry` value (lines 96-102): `server_config`, `tool_info`,
`server_id` and `original_tool_name`.  The stored `handler` reference is
behavioural and enters the embedding as the handler-behaviour parameter of
`execute_tool`. -/
structure Entry where
  server_config : ServerConfig
  tool_info : Tool
  server_id : Nat
  original_tool_name : String
deriving Repr, DecidableEq

/-- The keys of `self.protocol_handlers` built in `__init__` (current
revision adds `http_post`). -/
def knownProtocols : List String := ["http", "http_post", "sse", "websocket", "stdio"]

/-- `server_config['name'].lower().replace(' ', '_')`, the normalized
server-name prefix used to resolve a tool-name conflict (line 92). -/
def normalized_server_name (s : String) : String :=
  MCP.replace_spaces (MCP.ascii_lower s)

/-- The registry value stored for a discovered tool with (server-local)
name `n`. -/
def mkEntry (cfg : ServerConfig) (t : Tool) (n : String) : Entry :=
  ⟨cfg, t, cfg.id, n⟩

/-- The per-tool body of the registration loop of `_process_server`
(lines 84-102): skip falsy `tool_name`; if the name is already registered,
re-derive it by prefixing the normalized server name; register (Python
dict assignment, which replaces any existing binding of the derived key). -/
def register_step (cfg : ServerConfig) (reg : List (String × Entry)) (tool : Tool) :
    List (String × Entry) :=
  if MCP.falsyStr tool.tool_name then reg
  else
    let n := tool.tool_name.getD ""
    let key :=
      if (MCP.regFind? reg n).isSome then normalized_server_name cfg.name ++ "_" ++ n
      else n
    MCP.regInsert key (mkEntry cfg tool n) reg

/-- The binding a discovered tool `t` of server `cfg` can leave in the
registry: the entry records the tool's (truthy) server-local name as
`original_tool_name`, and the display key is either that local name or the
normalized-server-name-prefixed form. -/
def from_tool (cfg : ServerConfig) (t : Tool) (a : String) (b : Entry) : Prop :=
  ∃ n, t.tool_name = some n ∧ ¬ n.isEmpty ∧ b = mkEntry cfg t n ∧
    (a = n ∨ a = normalized_server_name cfg.name ++ "_" ++ n)

/-- One server's `discover_tools` call as `_process_server` sees it: the
`tools` entry of the manifest (`manifest.get('tools', [])`), or an
exception raised anywhere in the `try` body (caught by the per-server
`except`, which only logs). -/
inductive Discovery where
  | ok (tools : List Tool)
  | exn (msg : String)
deriving Repr, DecidableEq

/-- `UniversalMCPDispatcher._process_server` (lines 58-109) acting on the
registry: unknown protocol type returns without registering; the health
check only logs and never gates; a discovery exception is caught and the
server contributes nothing; an empty tool list returns early (the current
revision has no cached-tools fallback); otherwise every tool runs through
`register_step`. -/
def process_server (reg : List (String × Entry)) (cfg : ServerConfig)
    (disc : Discovery) : List (String × Entry) :=
  if (cfg.protocol_type.getD "sse") ∈ knownProtocols then
    match disc with
    | Discovery.exn _ => reg
    | Discovery.ok tools =>
      if tools.isEmpty then reg else tools.foldl (register_step cfg) reg
  else reg

/-- The per-server body of the current `initialize_tools`: servers whose
`is_active` (default `True`) is falsy are skipped. -/
def init_server_step (reg : List (String × Entry)) (p : ServerConfig × Discovery) :
    List (String × Entry) :=
  if p.1.is_active.getD true then process_server reg p.1 p.2 else reg

/-- `initialize_tools` (current revision, lines 31-56) acting on the
registry: clear it, then `_process_server` every active server. -/
def initialize_tools (servers : List (ServerConfig × Discovery)) :
    List (String × Entry) :=
  servers.foldl init_server_step []

/-- The result dictionary a current-revision protocol handler returns from
`execute_tool`: the dispatcher reads `status` and `content`; the HTTP
handler also fills `data`. -/
structure HResult where
  status : Option String
  content : Option String
  data : Option String
deriving Repr, DecidableEq

/-- One awaited `handler.execute_tool(...)` call of the current revision:
a result dictionary, or a raised exception (caught by the dispatcher's
`except`). -/
inductive HandlerStep where
  | ok (resp : HResult)
  | exn (msg : String)
deriving Repr, DecidableEq

/-- Instrumented result of the current `execute_tool`: the tool name the
protocol handler was invoked with (`none` when no handler was invoked),
and what the coroutine does for its caller — `Except.ok s` is a normally
returned string, `Except.error` a propagated exception (no branch produces
one: the `try`/`except` of lines 137-163 converts every outcome to a
string). -/
structure CallTrace where
  handler_called : Option String
  result : Except String String
deriving Repr

/-- `UniversalMCPDispatcher.execute_tool(tool_name, params)` (current
revision, lines 135-163).  `h` gives the behaviour of
`handler.execute_tool(server_config, name, params)` as a function of the
name it is invoked with (`params` is forwarded verbatim and folded into
`h`).  An unknown tool returns an error string before any handler is
consulted; a handler exception is caught by the `except` and rendered as a
string; otherwise the result dictionary is normalized to a string by its
`status`. -/
def execute_tool (reg : List (String × Entry)) (h : String → HandlerStep)
    (tool_name : String) : CallTrace :=
  match MCP.regFind? reg tool_name with
  | none => ⟨none, Except.ok ("Error: Tool '" ++ tool_name ++ "' not found in registry")⟩
  | some e =>
    match h e.original_tool_name with
    | HandlerStep.exn m =>
      ⟨some e.original_tool_name, Except.ok ("Error: Tool execution failed - " ++ m)⟩
    | HandlerStep.ok r =>
      if r.status = some "success" then
        ⟨some e.original_tool_name, Except.ok (r.content.getD "Tool executed successfully")⟩
      else
        ⟨some e.original_tool_name,
          Except.ok ("Error: " ++ r.content.getD "Unknown error occurred")⟩

/-- The current dispatcher's visible state for `execute_tool`:
`self.tool_registry`.  The method body (lines 135-163) contains no
assignment to any `self` attribute. -/
structure DispatcherState where
  tool_registry : List (String × Entry)
deriving Repr, DecidableEq

/-- The current `execute_tool` with the dispatcher state threaded
explicitly. -/
def execute_tool_st (st : DispatcherState) (h : String → HandlerStep)
    (tool_name : String) : DispatcherState × CallTrace :=
  (st, execute_tool st.tool_registry h tool_name)

end MCP.Cur

namespace MCP.Proto

/-! The HTTP protocol handlers:
`mcp_integration/protocols.py` (current) and
`archive/mcp_integration/protocols.py`. -/

/-- The slice of an `httpx` response the handlers read: the status code,
the body text, whether the `content-type` header starts with
`application/json`, and what `response.json()` does (parsed document, or
a raised decode error). -/
structure HttpResponse where
  status_code : Nat
  text : String
  json_content_type : Bool
  json : Except String String

/-- `HTTPProtocolHandler.execute_tool` of the current revision
(`mcp_integration/protocols.py` lines 46-76): the whole body is inside
`try`/`except Exception`; `raise_for_status` raises on status codes `≥ 400`
and `response.json()` may raise a decode error, and every raised exception
is converted to the typed result `{status: 'error', content: 'Tool
execution failed: ...'}`.  `net` is the outcome of the `client.post`
network call. -/
def http_execute_tool (net : Except String HttpResponse) : Cur.HResult :=
  match net with
  | Except.error e => ⟨some "error", some ("Tool execution failed: " ++ e), none⟩
  | Except.ok r =>
    if 400 ≤ r.status_code then
      ⟨some "error",
        some ("Tool execution failed: " ++ ("HTTP status error " ++ toString r.status_code)),
        none⟩
    else if r.json_content_type then
      match r.json with
      | Except.error e => ⟨some "error", some ("Tool execution failed: " ++ e), none⟩
      | Except.ok j => ⟨some "success", some r.text, some j⟩
    else ⟨some "success", some r.text, none⟩

/-- `HTTPProtocolHandler.execute_tool` of the archive revision
(`archive/mcp_integration/protocols.py` lines 32-40): no `try`/`except` —
a network error, a `raise_for_status` on status codes `≥ 400` and a JSON
decode error all propagate to the caller. -/
def archive_http_execute_tool (net : Except String HttpResponse) :
    Except String String :=
  match net with
  | Except.error e => Except.error e
  | Except.ok r =>
    if 400 ≤ r.status_code then
      Except.error ("HTTP status error " ++ toString r.status_code)
    else r.json

end MCP.Proto

namespace MCP.Tools

/-! The tool-to-callable bridge, `mcp_integration/tools.py`. -/

/-- One element of a list-valued `result["content"]`: its `text` entry if
present, and its `str(item)` rendering. -/
structure ContentItem where
  text : Option String
  as_string : String
deriving Repr, DecidableEq

/-- The `content` value of a call result: either a Python list of items or
any other value, rendered by `str`. -/
inductive ContentVal where
  | items (l : List ContentItem)
  | scalar (s : String)
deriving Repr, DecidableEq

/-- The dictionary returned by `server.call_tool`: `error` is `some` iff
the key `"error"` is present, `content` is `some` iff `"content"` is
present, and `as_string` is the `str(result)` fallback rendering. -/
structure CallResult where
  error : Option String
  content : Option ContentVal
  as_string : String
deriving Repr, DecidableEq

/-- One awaited `server.call_tool(...)` call: a result dictionary or a
raised exception. -/
inductive CallStep where
  | ok (r : CallResult)
  | exn (msg : String)
deriving Repr, DecidableEq

/-- The generated callable `mcp_tool_wrapper` (`mcp_integration/tools.py`
lines 84-110): the whole body is inside `try`/`except Exception`, and every
branch — upstream error entry, list content joined by newlines, scalar
content, bare result, raised exception — returns a string
(`Except.ok`). -/
def mcp_tool_wrapper (tool_name : String) (call : CallStep) : Except String String :=
  match call with
  | CallStep.exn m => Except.ok ("Error executing " ++ tool_name ++ ": " ++ m)
  | CallStep.ok r =>
    match r.error with
    | some m => Except.ok ("Error calling " ++ tool_name ++ ": " ++ m)
    | none =>
      match r.content with
      | some (ContentVal.items l) =>
        Except.ok (String.intercalate "\n" (l.map fun i => i.text.getD i.as_string))
      | some (ContentVal.scalar s) => Except.ok s
      | none => Except.ok r.as_string

end MCP.Tools

namespace MCP

/-! Concrete instances used to evaluate the embedded code on explicit
inputs. -/

/-- An archive server configuration with default poll interval (1000 ms)
and no cached tools. -/
def demo_arch_server : Archive.ServerConfig := ⟨1, "srv", some "http", none, none⟩

/-- An archive registry entry for a tool named `t` on `demo_arch_server`. -/
def demo_arch_entry : Archive.RegistryEntry := ⟨demo_arch_server, ⟨some "t", none⟩⟩

/-- A one-tool archive registry. -/
def demo_arch_reg : List (String × Archive.RegistryEntry) := [("t", demo_arch_entry)]

/-- A submission response carrying job id `j1`. -/
def demo_job_resp : Archive.ExecResponse := ⟨some "j1", none, none⟩

/-- A poll behaviour that reports `failed` with upstream message `boom` on
every poll. -/
def demo_poll_failed : Nat → Archive.PollStep :=
  fun _ => Archive.PollStep.ok ⟨some "failed", none, some "boom"⟩

/-- A poll behaviour that reports `pending` forever. -/
def demo_poll_pending : Nat → Archive.PollStep :=
  fun _ => Archive.PollStep.ok ⟨some "pending", none, none⟩

/-- A poll behaviour: `pending` on poll 1, `completed` with payload
`RESULT-XYZ` on poll 2. -/
def demo_poll_success : Nat → Archive.PollStep :=
  fun n =>
    if n = 2 then Archive.PollStep.ok ⟨some "completed", some "RESULT-XYZ", none⟩
    else Archive.PollStep.ok ⟨some "pending", none, none⟩

/-- An archive server with no cached tools, for the degradation instance. -/
def demo_down_server : Archive.ServerConfig := ⟨7, "down", some "http", none, none⟩

/-- A current-revision server named `My Srv`. -/
def demo_cur_server : Cur.ServerConfig := ⟨1, "My Srv", some "http", some true⟩

/-- Three discovered tools that share the server-local name `a` but carry
distinct descriptions. -/
def demo_tool1 : Cur.Tool := ⟨some "a", some "d1", none⟩

def demo_tool2 : Cur.Tool := ⟨some "a", some "d2", none⟩

def demo_tool3 : Cur.Tool := ⟨some "a", some "d3", none⟩

/-- One server whose discovery yields the three same-named tools. -/
def demo_cur_servers : List (Cur.ServerConfig × Cur.Discovery) :=
  [(demo_cur_server, Cur.Discovery.ok [demo_tool1, demo_tool2, demo_tool3])]

/-- A current-revision registry entry for the bridge instance. -/
def demo_cur_entry : Cur.Entry :=
  ⟨⟨1, "s", some "http", some true⟩, ⟨some "x", none, none⟩, 1, "x"⟩

/-- A handler behaviour that succeeds and echoes the tool name it was
invoked with. -/
def demo_echo_handler : String → Cur.HandlerStep :=
  fun n => Cur.HandlerStep.ok ⟨some "success", some ("ran " ++ n), none⟩

end MCP

namespace MCP

/-! Association-list registry lemmas. -/

theorem regFind?_mem {β : Type} {l : List (String × β)} {k : String} {v : β}
    (h : regFind? l k = some v) : (k, v) ∈ l := by
  induction l with
  | nil => simp [regFind?] at h
  | cons p t ih =>
    obtain ⟨k2, v2⟩ := p
    by_cases hk : k2 = k
    · subst hk
      simp [regFind?] at h
      subst h
      exact List.mem_cons_self _ _
    · simp only [regFind?, if_neg hk] at h
      exact List.mem_cons_of_mem _ (ih h)

theorem mem_regInsert {β : Type} {l : List (String × β)} {k a : String} {v b : β}
    (h : (a, b) ∈ regInsert k v l) : (a = k ∧ b = v) ∨ (a, b) ∈ l := by
  induction l with
  | nil =>
    simp only [regInsert, List.mem_singleton, Prod.mk.injEq] at h
    exact Or.inl h
  | cons p t ih =>
    obtain ⟨k2, v2⟩ := p
    by_cases hk : k2 = k
    · subst hk
      simp only [regInsert, if_pos rfl] at h
      rcases List.mem_cons.mp h with h | h
      · exact Or.inl (by simpa using h)
      · exact Or.inr (List.mem_cons_of_mem _ h)
    · simp only [regInsert, if_neg hk] at h
      rcases List.mem_cons.mp h with h | h
      · exact Or.inr (by simp [h])
      · rcases ih h with h2 | h2
        · exact Or.inl h2
        · exact Or.inr (List.mem_cons_of_mem _ h2)

theorem keys_regInsert_subset {β : Type} {l : List (String × β)} {k x : String}
    {v : β} (h : x ∈ (regInsert k v l).map Prod.fst) :
    x = k ∨ x ∈ l.map Prod.fst := by
  induction l with
  | nil => simpa [regInsert] using h
  | cons p t ih =>
    obtain ⟨k2, v2⟩ := p
    by_cases hk : k2 = k
    · subst hk
      simpa [regInsert] using h
    · simp only [regInsert, if_neg hk, List.map_cons, List.mem_cons] at h
      rcases h with h | h
      · exact Or.inr (by simp [h])
      · rcases ih h with h2 | h2
        · exact Or.inl h2
        · exact Or.inr (by simp [h2])

theorem nodup_keys_regInsert {β : Type} {l : List (String × β)} {k : String}
    {v : β} (h : (l.map Prod.fst).Nodup) :
    ((regInsert k v l).map Prod.fst).Nodup := by
  induction l with
  | nil => simp [regInsert]
  | cons p t ih =>
    obtain ⟨k2, v2⟩ := p
    simp only [List.map_cons, List.nodup_cons] at h
    by_cases hk : k2 = k
    · subst hk
      simpa [regInsert] using h
    · simp only [regInsert, if_neg hk, List.map_cons, List.nodup_cons]
      refine ⟨fun hmem => ?_, ih h.2⟩
      rcases keys_regInsert_subset hmem with h2 | h2
      · exact hk h2
      · exact h.1 h2

end MCP

namespace MCP.Archive

/-! Polling-loop lemmas. -/

/-- `poll_step` yields `exitDone` exactly on an `ok` response whose status
is `'completed'`. -/
theorem poll_step_exitDone {g : Nat → PollStep} {T pI k : Nat}
    {d : Option String} (h : poll_step g T pI k = StepRes.exitDone d) :
    ∃ r, g (k + 1) = PollStep.ok r ∧ r.status = some "completed" ∧ d = r.data := by
  cases hgk : g (k + 1) with
  | ok r =>
    simp only [poll_step, hgk] at h
    by_cases hc : r.status = some "completed"
    · rw [if_pos hc] at h
      cases h
      exact ⟨r, rfl, hc, rfl⟩
    · rw [if_neg hc] at h
      by_cases hf : r.status = some "failed"
      · rw [if_pos hf] at h
        by_cases ht : T ≤ (k + 1) * pI
        · rw [if_pos ht] at h; cases h
        · rw [if_neg ht] at h; cases h
      · rw [if_neg hf] at h; cases h
  | exn m =>
    simp only [poll_step, hgk] at h
    by_cases ht : T ≤ (k + 1) * pI
    · rw [if_pos ht] at h; cases h
    · rw [if_neg ht] at h; cases h

/-- An `ok` response that is neither `completed` nor `failed` makes the
loop continue. -/
theorem poll_step_again {g : Nat → PollStep} (T pI k : Nat) {r : PollResponse}
    (hgk : g (k + 1) = PollStep.ok r) (h1 : r.status ≠ some "completed")
    (h2 : r.status ≠ some "failed") :
    poll_step g T pI k = StepRes.again := by
  simp [poll_step, hgk, h1, h2]

/-- Invariant bound on the number of polls: entering the loop with
`k * pI < T + pI`, the final poll count also satisfies the bound, i.e. the
total slept time stays under `timeout + one poll interval`. -/
theorem poll_loop_polls_bound (g : Nat → PollStep) (T pI : Nat) :
    ∀ fuel k, k * pI < T + pI → (poll_loop g T pI fuel k).2 * pI < T + pI := by
  intro fuel
  induction fuel with
  | zero =>
    intro k hk
    by_cases hc : k * pI < T
    · simpa [poll_loop, hc] using hk
    · simpa [poll_loop, hc] using hk
  | succ n ih =>
    intro k hk
    by_cases hc : k * pI < T
    · have hk1 : (k + 1) * pI < T + pI := by
        rw [Nat.succ_mul]
        exact Nat.add_lt_add_right hc pI
      simp only [poll_loop, if_pos hc]
      cases hs : poll_step g T pI k with
      | exitDone d => simpa using hk1
      | exitTimeout => simpa using hk1
      | again => exact ih (k + 1) hk1
    · simpa [poll_loop, hc] using hk

/-- With a positive poll interval and enough fuel the loop cannot run out
of fuel: the source loop terminates. -/
theorem poll_loop_no_diverge (g : Nat → PollStep) (T pI : Nat) (hpI : 1 ≤ pI) :
    ∀ fuel k, T ≤ k + fuel → (poll_loop g T pI fuel k).1 ≠ PollExit.diverge := by
  intro fuel
  induction fuel with
  | zero =>
    intro k hT
    have hkk : k ≤ k * pI := by
      calc k = k * 1 := (Nat.mul_one k).symm
        _ ≤ k * pI := Nat.mul_le_mul_left k hpI
    have hc : ¬ k * pI < T := by omega
    simp [poll_loop, hc]
  | succ n ih =>
    intro k hT
    by_cases hc : k * pI < T
    · simp only [poll_loop, if_pos hc]
      cases hs : poll_step g T pI k with
      | exitDone d => simp
      | exitTimeout => simp
      | again => exact ih (k + 1) (by omega)
    · simp [poll_loop, hc]

/-- If no poll ever reports `'completed'`, the loop never exits with a
payload. -/
theorem poll_loop_no_done (g : Nat → PollStep) (T pI : Nat)
    (hg : ∀ n r, g n = PollStep.ok r → r.status ≠ some "completed") :
    ∀ fuel k d, (poll_loop g T pI fuel k).1 ≠ PollExit.done d := by
  intro fuel
  induction fuel with
  | zero =>
    intro k d
    by_cases hc : k * pI < T <;> simp [poll_loop, hc]
  | succ n ih =>
    intro k d
    by_cases hc : k * pI < T
    · simp only [poll_loop, if_pos hc]
      cases hs : poll_step g T pI k with
      | exitDone d2 =>
        exfalso
        obtain ⟨r, hr, hcomp, _⟩ := poll_step_exitDone hs
        exact hg _ _ hr hcomp
      | exitTimeout => simp
      | again => exact ih (k + 1) d
    · simp [poll_loop, hc]

/-- If polls `1..N-1` return non-terminal responses and poll `N` returns
`'completed'`, and the deadline still holds when poll `N` is due, the loop
returns that poll's payload after exactly `N` polls. -/
theorem poll_loop_completes (g : Nat → PollStep) (T pI : Nat) (N : Nat)
    (rN : PollResponse) (hgN : g N = PollStep.ok rN)
    (hcomp : rN.status = some "completed")
    (hpre : ∀ n, 1 ≤ n → n < N → ∃ r, g n = PollStep.ok r ∧
      r.status ≠ some "completed" ∧ r.status ≠ some "failed")
    (hdl : (N - 1) * pI < T) :
    ∀ fuel k, k < N → N ≤ k + fuel →
      poll_loop g T pI fuel k = (PollExit.done rN.data, N) := by
  intro fuel
  induction fuel with
  | zero => intro k h1 h2; omega
  | succ n ih =>
    intro k h1 h2
    have hc : k * pI < T := by
      have hk : k ≤ N - 1 := by omega
      have hmul : k * pI ≤ (N - 1) * pI := Nat.mul_le_mul_right pI hk
      omega
    by_cases hN : k + 1 = N
    · have hstep : poll_step g T pI k = StepRes.exitDone rN.data := by
        simp [poll_step, hN, hgN, hcomp]
      simp [poll_loop, hc, hstep, hN]
    · obtain ⟨r, hr, hr1, hr2⟩ := hpre (k + 1) (by omega) (by omega)
      have hstep : poll_step g T pI k = StepRes.again :=
        poll_step_again T pI k hr hr1 hr2
      simp only [poll_loop, if_pos hc, hstep]
      exact ih (k + 1) (by omega) (by omega)

end MCP.Archive

namespace MCP.Cur

/-! Registration lemmas for the current dispatcher. -/

theorem cur_mem_register_step {cfg : ServerConfig} {reg : List (String × Entry)}
    {tool : Tool} {a : String} {b : Entry}
    (h : (a, b) ∈ register_step cfg reg tool) :
    (a, b) ∈ reg ∨ from_tool cfg tool a b := by
  by_cases hfal : MCP.falsyStr tool.tool_name
  · simp only [register_step, if_pos hfal] at h
    exact Or.inl h
  · obtain ⟨n, hn⟩ : ∃ n, tool.tool_name = some n := by
      cases htn : tool.tool_name
      · rw [htn] at hfal; simp [MCP.falsyStr] at hfal
      · exact ⟨_, rfl⟩
    have hne : ¬ n.isEmpty := by
      rw [hn] at hfal; simpa [MCP.falsyStr] using hfal
    have hfal2 : ¬ (MCP.falsyStr (some n) = true) := by
      rw [hn] at hfal; exact hfal
    simp only [register_step, hn, Option.getD_some, if_neg hfal2] at h
    rcases MCP.mem_regInsert h with ⟨ha, hb⟩ | h2
    · refine Or.inr ⟨n, hn, hne, hb, ?_⟩
      by_cases hdup : (MCP.regFind? reg n).isSome
      · rw [if_pos hdup] at ha; exact Or.inr ha
      · rw [if_neg hdup] at ha; exact Or.inl ha
    · exact Or.inl h2

theorem cur_mem_register_fold {cfg : ServerConfig} {tools : List Tool} :
    ∀ {reg : List (String × Entry)} {a : String} {b : Entry},
      (a, b) ∈ tools.foldl (register_step cfg) reg →
      (a, b) ∈ reg ∨ ∃ t ∈ tools, from_tool cfg t a b := by
  induction tools with
  | nil => intro reg a b h; exact Or.inl h
  | cons t ts ih =>
    intro reg a b h
    simp only [List.foldl_cons] at h
    rcases ih h with h2 | h2
    · rcases cur_mem_register_step h2 with h3 | h3
      · exact Or.inl h3
      · exact Or.inr ⟨t, List.mem_cons_self _ _, h3⟩
    · obtain ⟨t2, ht2, rest⟩ := h2
      exact Or.inr ⟨t2, List.mem_cons_of_mem _ ht2, rest⟩

theorem cur_mem_process_server {cfg : ServerConfig} {disc : Discovery}
    {reg : List (String × Entry)} {a : String} {b : Entry}
    (h : (a, b) ∈ process_server reg cfg disc) :
    (a, b) ∈ reg ∨ ∃ tools, disc = Discovery.ok tools ∧ ∃ t ∈ tools, from_tool cfg t a b := by
  unfold process_server at h
  by_cases hp : (cfg.protocol_type.getD "sse") ∈ knownProtocols
  · rw [if_pos hp] at h
    cases disc with
    | exn m => exact Or.inl h
    | ok tools =>
      by_cases he : tools.isEmpty
      · simp only [he, if_true] at h
        exact Or.inl h
      · simp only [he, if_false] at h
        rcases cur_mem_register_fold h with h2 | h2
        · exact Or.inl h2
        · exact Or.inr ⟨tools, rfl, h2⟩
  · rw [if_neg hp] at h
    exact Or.inl h

theorem cur_mem_init_from {a : String} {b : Entry} :
    ∀ (servers : List (ServerConfig × Discovery)) (reg : List (String × Entry)),
      (a, b) ∈ servers.foldl init_server_step reg →
      (a, b) ∈ reg ∨ ∃ p ∈ servers, ∃ tools, p.2 = Discovery.ok tools ∧
        ∃ t ∈ tools, from_tool p.1 t a b := by
  intro servers
  induction servers with
  | nil => intro reg h; exact Or.inl h
  | cons p ps ih =>
    intro reg h
    simp only [List.foldl_cons] at h
    rcases ih _ h with h2 | h2
    · unfold init_server_step at h2
      by_cases hact : p.1.is_active.getD true
      · rw [if_pos hact] at h2
        rcases cur_mem_process_server h2 with h3 | h3
        · exact Or.inl h3
        · exact Or.inr ⟨p, List.mem_cons_self _ _, h3⟩
      · rw [if_neg hact] at h2
        exact Or.inl h2
    · obtain ⟨p2, hp2, rest⟩ := h2
      exact Or.inr ⟨p2, List.mem_cons_of_mem _ hp2, rest⟩

/-- Every binding of the registry `initialize_tools` builds comes from a
discovered tool of one of the given servers, under the source's
key-derivation rule. -/
theorem cur_mem_initialize_tools {servers : List (ServerConfig × Discovery)}
    {a : String} {b : Entry} (h : (a, b) ∈ initialize_tools servers) :
    ∃ p ∈ servers, ∃ tools, p.2 = Discovery.ok tools ∧
      ∃ t ∈ tools, from_tool p.1 t a b := by
  rcases cur_mem_init_from servers [] h with h2 | h2
  · simp at h2
  · exact h2

theorem cur_nodup_register_step {cfg : ServerConfig} {reg : List (String × Entry)}
    {tool : Tool} (h : (reg.map Prod.fst).Nodup) :
    ((register_step cfg reg tool).map Prod.fst).Nodup := by
  unfold register_step
  by_cases hfal : MCP.falsyStr tool.tool_name
  · rw [if_pos hfal]; exact h
  · rw [if_neg hfal]; exact MCP.nodup_keys_regInsert h

theorem cur_nodup_register_fold {cfg : ServerConfig} {tools : List Tool} :
    ∀ {reg : List (String × Entry)}, (reg.map Prod.fst).Nodup →
      ((tools.foldl (register_step cfg) reg).map Prod.fst).Nodup := by
  induction tools with
  | nil => intro reg h; exact h
  | cons t ts ih =>
    intro reg h
    simp only [List.foldl_cons]
    exact ih (cur_nodup_register_step h)

theorem cur_nodup_process_server {cfg : ServerConfig} {disc : Discovery}
    {reg : List (String × Entry)} (h : (reg.map Prod.fst).Nodup) :
    ((process_server reg cfg disc).map Prod.fst).Nodup := by
  unfold process_server
  by_cases hp : (cfg.protocol_type.getD "sse") ∈ knownProtocols
  · rw [if_pos hp]
    cases disc with
    | exn m => exact h
    | ok tools =>
      by_cases he : tools.isEmpty
      · simp only [he, if_true]; exact h
      · simp only [he, if_false]; exact cur_nodup_register_fold h
  · rw [if_neg hp]; exact h

theorem cur_nodup_init_from :
    ∀ (servers : List (ServerConfig × Discovery)) (reg : List (String × Entry)),
      (reg.map Prod.fst).Nodup →
      ((servers.foldl init_server_step reg).map Prod.fst).Nodup := by
  intro servers
  induction servers with
  | nil => intro reg h; exact h
  | cons p ps ih =>
    intro reg h
    simp only [List.foldl_cons]
    refine ih _ ?_
    unfold init_server_step
    by_cases hact : p.1.is_active.getD true
    · rw [if_pos hact]; exact cur_nodup_process_server h
    · rw [if_neg hact]; exact h

/-- P1 for the current dispatcher: the registry `initialize_tools` builds
never holds two bindings of the same display name. -/
theorem cur_nodup_initialize_tools (servers : List (ServerConfig × Discovery)) :
    ((initialize_tools servers).map Prod.fst).Nodup :=
  cur_nodup_init_from servers [] (by simp)

end MCP.Cur

namespace MCP.Archive

/-! Initialization lemmas for the archive dispatcher. -/

/-- The registry component of one `init_step` does not depend on the
accumulated status updates. -/
theorem arch_fst_init_step (acc : List (String × RegistryEntry) × List (Nat × String))
    (p : ServerConfig × DiscStep) : (init_step acc p).1 = reg_step acc.1 p := by
  obtain ⟨srv, disc⟩ := p
  cases disc with
  | exn m =>
    by_cases hp : (srv.protocol_type.getD "http") ∈ knownProtocols
    · simp [init_step, reg_step, hp]
    · simp [init_step, reg_step, hp]
  | ok discovered =>
    by_cases hp : (srv.protocol_type.getD "http") ∈ knownProtocols
    · by_cases he : discovered.isEmpty = true
      · by_cases ht : (srv.tools.getD []).isEmpty = true
        · simp [init_step, reg_step, hp, he, ht]
        · simp [init_step, reg_step, hp, he, ht]
      · simp [init_step, reg_step, hp, he]
    · simp [init_step, reg_step, hp]

/-- The registry built by `initialize_tools` is the `reg_step` fold. -/
theorem arch_fst_foldl (servers : List (ServerConfig × DiscStep)) :
    ∀ acc, (servers.foldl init_step acc).1 = servers.foldl reg_step acc.1 := by
  induction servers with
  | nil => intro acc; rfl
  | cons p ps ih =>
    intro acc
    simp only [List.foldl_cons]
    rw [ih, arch_fst_init_step]

/-- A server whose discovery raises contributes nothing to the registry:
the per-server `except` catches the exception before any registration. -/
theorem arch_reg_step_exn (reg : List (String × RegistryEntry))
    (srv : ServerConfig) (m : String) :
    reg_step reg (srv, DiscStep.exn m) = reg := by
  by_cases hp : (srv.protocol_type.getD "http") ∈ knownProtocols
  · simp [reg_step, hp]
  · simp [reg_step, hp]

/-- Empty discovery falls back to the cached tool list of the server
configuration: the registry contribution is the same as if discovery had
returned that cached list. -/
theorem arch_reg_step_fallback (reg : List (String × RegistryEntry))
    (srv : ServerConfig) :
    reg_step reg (srv, DiscStep.ok []) =
      reg_step reg (srv, DiscStep.ok (srv.tools.getD [])) := by
  have hsplit : (if (srv.tools.getD []).isEmpty = true then srv.tools.getD []
      else srv.tools.getD []) = srv.tools.getD [] := by
    split <;> rfl
  by_cases hp : (srv.protocol_type.getD "http") ∈ knownProtocols
  · simp [reg_step, hp, hsplit]
  · simp [reg_step, hp]

/-- With no cached tools either, an empty discovery leaves the registry
untouched. -/
theorem arch_reg_step_empty (reg : List (String × RegistryEntry))
    (srv : ServerConfig) (hc : srv.tools.getD [] = []) :
    reg_step reg (srv, DiscStep.ok []) = reg := by
  by_cases hp : (srv.protocol_type.getD "http") ∈ knownProtocols
  · simp [reg_step, hp, hc, register_tools]
  · simp [reg_step, hp]

end MCP.Archive

open MCP

/-! The claims. -/

/-- C1 (code bug): the spec says a `failed` poll status makes
`execute_tool` raise an ExecutionFailure carrying the upstream message with
no further polling.  In the source the `raise RuntimeError(...)` of the
`failed` branch is inside the `try` whose catch-all
`except Exception as poll_error` swallows it, so the dispatcher keeps
polling and finally raises TimeoutError instead.  Evaluating the embedded
code on the failing input: registry entry `t` (poll interval 1000 ms),
timeout 2 s, submission returning job id `j1`, every `get_result` poll
reporting `failed` with message `boom` — the call makes a second
`get_result` call after observing `failed` on poll 1, never raises the
RuntimeError, and ends in the timeout raise. -/
theorem C1_failed_status_swallowed :
    Archive.execute_tool demo_arch_reg "t" 2 (Archive.SubmitStep.ok demo_job_resp)
        demo_poll_failed =
      ⟨Archive.Outcome.timeoutError "Polling for tool 't' timed out after 2 seconds.",
        1, 2⟩ := by
  rfl

/-- C7 (corrected): the current `HTTPProtocolHandler.execute_tool` indeed
never raises on network or parse failures — every outcome is a result
dictionary whose `status` is `success`, or `error` with the failure message
in `content`.  The claim as stated also covers the archive
`HTTPProtocolHandler.execute_tool` (cited in its sources), and that variant
propagates the exception instead (see `C7_counterexample_archive_raises`). -/
theorem C7_amended_typed_error :
    (∀ net, (Proto.http_execute_tool net).status = some "success" ∨
      ((Proto.http_execute_tool net).status = some "error" ∧
        ∃ m, (Proto.http_execute_tool net).content =
          some ("Tool execution failed: " ++ m))) ∧
    (∀ e, Proto.archive_http_execute_tool (Except.error e) = Except.error e) := by
  constructor
  · intro net
    cases net with
    | error e => exact Or.inr ⟨rfl, e, rfl⟩
    | ok r =>
      by_cases hc : 400 ≤ r.status_code
      · refine Or.inr ⟨?_, "HTTP status error " ++ toString r.status_code, ?_⟩
        · simp [Proto.http_execute_tool, hc]
        · simp [Proto.http_execute_tool, hc]
      · by_cases hj : r.json_content_type
        · cases hjs : r.json with
          | error e =>
            refine Or.inr ⟨?_, e, ?_⟩
            · simp [Proto.http_execute_tool, hc, hj, hjs]
            · simp [Proto.http_execute_tool, hc, hj, hjs]
          | ok j =>
            refine Or.inl ?_
            simp [Proto.http_execute_tool, hc, hj, hjs]
        · refine Or.inl ?_
          simp [Proto.http_execute_tool, hc, hj]
  · intro e
    rfl

/-- C7 counterexample: at the concrete input "the network call raises
`connection refused`", the archive HTTP handler's `execute_tool` (one of
the claim's cited code places) propagates the exception to its caller
instead of returning a typed error result. -/
theorem C7_counterexample_archive_raises :
    Proto.archive_http_execute_tool (Except.error "connection refused") =
      Except.error "connection refused" := by
  rfl

/-- C8 (confirmed): an unknown tool name makes the archive `execute_tool`
raise its not-found `ValueError` — a constructor distinct from the
execution-failure `RuntimeError` — with zero submissions and zero polls, so
no protocol handler is invoked (the result does not depend on `submit` or
`g` at all); the current revision returns its not-found error string with
`handler_called = none`. -/
theorem C8_not_found :
    (∀ (reg : List (String × Archive.RegistryEntry)) (tool_name : String)
      (timeout_s : Nat) (submit : Archive.SubmitStep) (g : Nat → Archive.PollStep),
      MCP.regFind? reg tool_name = none →
      Archive.execute_tool reg tool_name timeout_s submit g =
        ⟨Archive.Outcome.valueError ("Tool '" ++ tool_name ++ "' not found in registry."),
          0, 0⟩) ∧
    (∀ m m2, Archive.Outcome.valueError m ≠ Archive.Outcome.runtimeError m2) ∧
    (∀ (reg : List (String × Cur.Entry)) (h : String → Cur.HandlerStep)
      (tool_name : String),
      MCP.regFind? reg tool_name = none →
      (Cur.execute_tool reg h tool_name).handler_called = none ∧
      (Cur.execute_tool reg h tool_name).result =
        Except.ok ("Error: Tool '" ++ tool_name ++ "' not found in registry")) := by
  refine ⟨?_, ?_, ?_⟩
  · intro reg tool_name timeout_s submit g hf
    simp only [Archive.execute_tool, hf]
  · intro m m2 hcontra
    cases hcontra
  · intro reg h tool_name hf
    constructor
    · simp only [Cur.execute_tool, hf]
    · simp only [Cur.execute_tool, hf]

/-- C8 witness: at the empty registry and tool name `nope`, both
dispatchers fail closed without consulting any handler. -/
theorem C8_witness :
    Archive.execute_tool [] "nope" 5 (Archive.SubmitStep.exn "x")
        (fun _ => Archive.PollStep.exn "x") =
      ⟨Archive.Outcome.valueError ("Tool '" ++ "nope" ++ "' not found in registry."),
        0, 0⟩ ∧
    (Cur.execute_tool [] (fun _ => Cur.HandlerStep.exn "x") "nope").handler_called =
      none :=
  ⟨C8_not_found.1 [] "nope" 5 _ _ rfl,
    (C8_not_found.2.2 [] _ "nope" rfl).1⟩

/-- C9 (confirmed): with the dispatcher state threaded explicitly,
`execute_tool` of either revision returns the state it was given: the
method bodies only read `self.tool_registry` and never assign to it, so
the registry mapping is left unchanged whatever the call's outcome. -/
theorem C9_registry_frame :
    (∀ (st : Archive.DispatcherState) (tool_name : String) (timeout_s : Nat)
      (submit : Archive.SubmitStep) (g : Nat → Archive.PollStep),
      (Archive.execute_tool_st st tool_name timeout_s submit g).1 = st) ∧
    (∀ (st : Cur.DispatcherState) (h : String → Cur.HandlerStep) (tool_name : String),
      (Cur.execute_tool_st st h tool_name).1 = st) :=
  ⟨fun _ _ _ _ _ => rfl, fun _ _ _ => rfl⟩

/-- C5 (confirmed): the bridge layer always hands the hosting agent a
string.  The current dispatcher's `execute_tool` returns `Except.ok` for
every registry, handler behaviour and tool name (its `try`/`except`
converts unknown tools, handler error results and raised exceptions to
strings), the generated `mcp_tool_wrapper` of `tools.py` likewise returns
`Except.ok` on every call outcome, and a raised handler exception is
rendered as the documented failure string rather than propagated. -/
theorem C5_bridge_total :
    (∀ (reg : List (String × Cur.Entry)) (h : String → Cur.HandlerStep)
      (name : String), ∃ s, (Cur.execute_tool reg h name).result = Except.ok s) ∧
    (∀ (name : String) (call : Tools.CallStep),
      ∃ s, Tools.mcp_tool_wrapper name call = Except.ok s) ∧
    (∀ (reg : List (String × Cur.Entry)) (h : String → Cur.HandlerStep)
      (name : String) (e : Cur.Entry) (m : String),
      MCP.regFind? reg name = some e →
      h e.original_tool_name = Cur.HandlerStep.exn m →
      (Cur.execute_tool reg h name).result =
        Except.ok ("Error: Tool execution failed - " ++ m)) := by
  refine ⟨?_, ?_, ?_⟩
  · intro reg h name
    cases hf : MCP.regFind? reg name with
    | none =>
      exact ⟨"Error: Tool '" ++ name ++ "' not found in registry",
        by simp [Cur.execute_tool, hf]⟩
    | some e =>
      cases hh : h e.original_tool_name with
      | exn m =>
        exact ⟨"Error: Tool execution failed - " ++ m,
          by simp [Cur.execute_tool, hf, hh]⟩
      | ok r =>
        by_cases hs : r.status = some "success"
        · exact ⟨r.content.getD "Tool executed successfully",
            by simp [Cur.execute_tool, hf, hh, hs]⟩
        · exact ⟨"Error: " ++ r.content.getD "Unknown error occurred",
            by simp [Cur.execute_tool, hf, hh, hs]⟩
  · intro name call
    cases call with
    | exn m => exact ⟨"Error executing " ++ name ++ ": " ++ m, rfl⟩
    | ok r =>
      cases herr : r.error with
      | some m =>
        exact ⟨"Error calling " ++ name ++ ": " ++ m,
          by simp [Tools.mcp_tool_wrapper, herr]⟩
      | none =>
        cases hc : r.content with
        | none => exact ⟨r.as_string, by simp [Tools.mcp_tool_wrapper, herr, hc]⟩
        | some cv =>
          cases cv with
          | items l =>
            exact ⟨String.intercalate "\n" (l.map fun i => i.text.getD i.as_string),
              by simp [Tools.mcp_tool_wrapper, herr, hc]⟩
          | scalar s => exact ⟨s, by simp [Tools.mcp_tool_wrapper, herr, hc]⟩
  · intro reg h name e m hf hh
    simp [Cur.execute_tool, hf, hh]

/-- C5 witness: a one-entry registry whose handler raises `boom` still
yields a normally returned string. -/
theorem C5_witness :
    (Cur.execute_tool [("x", demo_cur_entry)] (fun _ => Cur.HandlerStep.exn "boom")
        "x").result = Except.ok ("Error: Tool execution failed - " ++ "boom") :=
  C5_bridge_total.2.2 [("x", demo_cur_entry)] _ "x" demo_cur_entry "boom" rfl rfl

/-- A server of the current revision whose discovery raises contributes
nothing: `_process_server` catches the exception and only logs. -/
theorem cur_init_server_step_exn (reg : List (String × Cur.Entry))
    (srv : Cur.ServerConfig) (m : String) :
    Cur.init_server_step reg (srv, Cur.Discovery.exn m) = reg := by
  unfold Cur.init_server_step Cur.process_server
  by_cases ha : srv.is_active.getD true
  · rw [if_pos ha]
    by_cases hp : (srv.protocol_type.getD "sse") ∈ Cur.knownProtocols
    · rw [if_pos hp]
    · rw [if_neg hp]
  · rw [if_neg ha]

/-- A server of the current revision whose discovery yields no tools
contributes nothing (the current `_process_server` returns early; it has no
cached-tools fallback and its server rows carry no cached tool list). -/
theorem cur_init_server_step_empty (reg : List (String × Cur.Entry))
    (srv : Cur.ServerConfig) :
    Cur.init_server_step reg (srv, Cur.Discovery.ok []) = reg := by
  unfold Cur.init_server_step Cur.process_server
  by_cases ha : srv.is_active.getD true
  · rw [if_pos ha]
    by_cases hp : (srv.protocol_type.getD "sse") ∈ Cur.knownProtocols
    · rw [if_pos hp]
      rfl
    · rw [if_neg hp]
  · rw [if_neg ha]

/-- C6 (confirmed): (i) in the archive `initialize_tools` a server whose
discovery raises contributes nothing and the final registry is exactly the
one built from the remaining servers — one failing server never prevents
registration of the others' tools; (ii) a server whose discovery yields no
tools falls back to the tool list cached on its configuration; (iii) with
no cached tools either, it contributes zero registrations without aborting
the rest; (iv) and (v) in the current revision, whose server rows carry no
cached tool list, a raised discovery and an empty discovery likewise leave
the other servers' registrations exactly intact. -/
theorem C6_graceful_degradation :
    (∀ (pre post : List (Archive.ServerConfig × Archive.DiscStep))
      (srv : Archive.ServerConfig) (m : String),
      (Archive.initialize_tools (pre ++ (srv, Archive.DiscStep.exn m) :: post)).1 =
        (Archive.initialize_tools (pre ++ post)).1) ∧
    (∀ (pre post : List (Archive.ServerConfig × Archive.DiscStep))
      (srv : Archive.ServerConfig),
      (Archive.initialize_tools (pre ++ (srv, Archive.DiscStep.ok []) :: post)).1 =
        (Archive.initialize_tools
          (pre ++ (srv, Archive.DiscStep.ok (srv.tools.getD [])) :: post)).1) ∧
    (∀ (pre post : List (Archive.ServerConfig × Archive.DiscStep))
      (srv : Archive.ServerConfig), srv.tools.getD [] = [] →
      (Archive.initialize_tools (pre ++ (srv, Archive.DiscStep.ok []) :: post)).1 =
        (Archive.initialize_tools (pre ++ post)).1) ∧
    (∀ (pre post : List (Cur.ServerConfig × Cur.Discovery))
      (srv : Cur.ServerConfig) (m : String),
      Cur.initialize_tools (pre ++ (srv, Cur.Discovery.exn m) :: post) =
        Cur.initialize_tools (pre ++ post)) ∧
    (∀ (pre post : List (Cur.ServerConfig × Cur.Discovery))
      (srv : Cur.ServerConfig),
      Cur.initialize_tools (pre ++ (srv, Cur.Discovery.ok []) :: post) =
        Cur.initialize_tools (pre ++ post)) := by
  refine ⟨?_, ?_, ?_, ?_, ?_⟩
  · intro pre post srv m
    simp only [Archive.initialize_tools]
    rw [Archive.arch_fst_foldl, Archive.arch_fst_foldl, List.foldl_append,
      List.foldl_append, List.foldl_cons, Archive.arch_reg_step_exn]
  · intro pre post srv
    simp only [Archive.initialize_tools]
    rw [Archive.arch_fst_foldl, Archive.arch_fst_foldl, List.foldl_append,
      List.foldl_append, List.foldl_cons, List.foldl_cons,
      Archive.arch_reg_step_fallback]
  · intro pre post srv hc
    simp only [Archive.initialize_tools]
    rw [Archive.arch_fst_foldl, Archive.arch_fst_foldl, List.foldl_append,
      List.foldl_append, List.foldl_cons, Archive.arch_reg_step_empty _ _ hc]
  · intro pre post srv m
    simp only [Cur.initialize_tools]
    rw [List.foldl_append, List.foldl_append, List.foldl_cons,
      cur_init_server_step_exn]
  · intro pre post srv
    simp only [Cur.initialize_tools]
    rw [List.foldl_append, List.foldl_append, List.foldl_cons,
      cur_init_server_step_empty]

/-- C6 witness: a lone archive server with empty discovery and no cached
tools leaves the registry exactly as an initialization without it. -/
theorem C6_witness :
    (Archive.initialize_tools [(demo_down_server, Archive.DiscStep.ok [])]).1 =
      (Archive.initialize_tools []).1 :=
  C6_graceful_degradation.2.2.1 [] [] demo_down_server rfl

/-- C2 counterexample: a submission response with no job id and the
non-terminal status `queued` is returned to the caller as-is at time zero
(`retInline`, zero polls) — no terminal status was ever observed, yet the
call returns a non-terminal result instead of raising TimeoutError, so the
claim's timeout clause fails as universally stated. -/
theorem C2_counterexample_inline_nonterminal :
    Archive.execute_tool demo_arch_reg "t" 5
        (Archive.SubmitStep.ok ⟨none, some "queued", none⟩) demo_poll_pending =
      ⟨Archive.Outcome.retInline ⟨none, some "queued", none⟩, 1, 0⟩ := by
  rfl

/-- C2 (corrected): for strictly positive timeout and poll interval, the
time `execute_tool` spends sleeping — `polls * poll_interval` in the
discrete-time model — never exceeds `timeout + one poll_interval`; and on
the polling path (submission returned a truthy job id) a poll sequence with
no terminal status makes the call raise the TimeoutError rather than hang
or return.  The claim's timeout clause holds only for the polling path: a
non-async submission response is returned inline as-is
(`C2_counterexample_inline_nonterminal`). -/
theorem C2_amended_timeout_bound
    (reg : List (String × Archive.RegistryEntry)) (tool_name : String)
    (timeout_s : Nat) (submit : Archive.SubmitStep) (g : Nat → Archive.PollStep)
    (e : Archive.RegistryEntry)
    (hfind : MCP.regFind? reg tool_name = some e)
    (htS : 1 ≤ timeout_s)
    (hpI : 1 ≤ e.server_config.poll_interval.getD 1000) :
    (Archive.execute_tool reg tool_name timeout_s submit g).polls *
        e.server_config.poll_interval.getD 1000 ≤
      timeout_s * 1000 + e.server_config.poll_interval.getD 1000 ∧
    (∀ sresp, submit = Archive.SubmitStep.ok sresp →
      MCP.falsyStr sresp.job_id = false →
      e.server_config.protocol_type.getD "http" ∈ Archive.knownProtocols →
      (∀ n r, g n = Archive.PollStep.ok r →
        r.status ≠ some "completed" ∧ r.status ≠ some "failed") →
      (Archive.execute_tool reg tool_name timeout_s submit g).outcome =
        Archive.Outcome.timeoutError ("Polling for tool '" ++ tool_name ++
          "' timed out after " ++ toString timeout_s ++ " seconds.")) := by
  constructor
  · by_cases hp : e.server_config.protocol_type.getD "http" ∈ Archive.knownProtocols
    · cases submit with
      | exn m =>
        simp only [Archive.execute_tool, hfind, if_pos hp]
        simp
      | ok resp =>
        by_cases hjob : MCP.falsyStr resp.job_id = true
        · simp only [Archive.execute_tool, hfind, if_pos hp, if_pos hjob]
          split
          · simp
          · split
            · simp
            · simp
        · simp only [Archive.execute_tool, hfind, if_pos hp, if_neg hjob]
          have hb := Archive.poll_loop_polls_bound g (timeout_s * 1000)
            (e.server_config.poll_interval.getD 1000) (timeout_s * 1000 + 1) 0
            (by simp only [Nat.zero_mul]; omega)
          rcases hpl : Archive.poll_loop g (timeout_s * 1000)
              (e.server_config.poll_interval.getD 1000) (timeout_s * 1000 + 1) 0
            with ⟨ex, polls⟩
          rw [hpl] at hb
          simp only at hb
          cases ex <;> simp <;> omega
    · simp only [Archive.execute_tool, hfind, if_neg hp]
      simp
  · intro sresp hsub hjob hp hg
    subst hsub
    have hjob2 : ¬ MCP.falsyStr sresp.job_id = true := by simp [hjob]
    simp only [Archive.execute_tool, hfind, if_pos hp, if_neg hjob2]
    rcases hpl : Archive.poll_loop g (timeout_s * 1000)
        (e.server_config.poll_interval.getD 1000) (timeout_s * 1000 + 1) 0
      with ⟨ex, polls⟩
    cases ex with
    | done d =>
      exfalso
      have hnd := Archive.poll_loop_no_done g (timeout_s * 1000)
        (e.server_config.poll_interval.getD 1000)
        (fun n r hr => (hg n r hr).1) (timeout_s * 1000 + 1) 0 d
      rw [hpl] at hnd
      exact hnd rfl
    | timedOut =>
      rfl
    | diverge =>
      exfalso
      have hnd := Archive.poll_loop_no_diverge g (timeout_s * 1000)
        (e.server_config.poll_interval.getD 1000) hpI (timeout_s * 1000 + 1) 0
        (by omega)
      rw [hpl] at hnd
      exact hnd rfl

/-- C2 witness: a one-second timeout with a forever-`pending` poll sequence
stays within the sleep budget and raises the TimeoutError. -/
theorem C2_witness :
    (Archive.execute_tool demo_arch_reg "t" 1 (Archive.SubmitStep.ok demo_job_resp)
        demo_poll_pending).polls * 1000 ≤ 1 * 1000 + 1000 ∧
    (Archive.execute_tool demo_arch_reg "t" 1 (Archive.SubmitStep.ok demo_job_resp)
        demo_poll_pending).outcome =
      Archive.Outcome.timeoutError "Polling for tool 't' timed out after 1 seconds." := by
  have h := C2_amended_timeout_bound demo_arch_reg "t" 1
    (Archive.SubmitStep.ok demo_job_resp) demo_poll_pending demo_arch_entry rfl
    (by decide) (by decide)
  refine ⟨h.1, ?_⟩
  exact h.2 demo_job_resp rfl (by decide) (by decide)
    (fun n r hr => by cases hr; exact ⟨by decide, by decide⟩)

/-- C3 (confirmed, P4): when the submission yields a truthy job id, polls
`1..N-1` report non-terminal statuses, poll `N` reports `completed` with
payload `P`, and the deadline still holds when poll `N` is due, the archive
`execute_tool` returns exactly that payload with exactly `N` `get_result`
calls and the single submission. -/
theorem C3_terminal_success
    (reg : List (String × Archive.RegistryEntry)) (tool_name : String)
    (timeout_s : Nat) (sresp : Archive.ExecResponse) (g : Nat → Archive.PollStep)
    (e : Archive.RegistryEntry) (N : Nat) (rN : Archive.PollResponse)
    (hfind : MCP.regFind? reg tool_name = some e)
    (hp : e.server_config.protocol_type.getD "http" ∈ Archive.knownProtocols)
    (hjob : MCP.falsyStr sresp.job_id = false)
    (hpI : 1 ≤ e.server_config.poll_interval.getD 1000)
    (hN : 1 ≤ N)
    (hpre : ∀ n, 1 ≤ n → n < N → ∃ r, g n = Archive.PollStep.ok r ∧
      r.status ≠ some "completed" ∧ r.status ≠ some "failed")
    (hgN : g N = Archive.PollStep.ok rN)
    (hcomp : rN.status = some "completed")
    (hdl : (N - 1) * (e.server_config.poll_interval.getD 1000) < timeout_s * 1000) :
    Archive.execute_tool reg tool_name timeout_s (Archive.SubmitStep.ok sresp) g =
      ⟨Archive.Outcome.ret rN.data, 1, N⟩ := by
  have hfuel : N ≤ 0 + (timeout_s * 1000 + 1) := by
    have h1 : N - 1 ≤ (N - 1) * (e.server_config.poll_interval.getD 1000) := by
      calc N - 1 = (N - 1) * 1 := (Nat.mul_one _).symm
        _ ≤ (N - 1) * (e.server_config.poll_interval.getD 1000) :=
          Nat.mul_le_mul_left _ hpI
    omega
  have hloop := Archive.poll_loop_completes g (timeout_s * 1000)
    (e.server_config.poll_interval.getD 1000) N rN hgN hcomp hpre hdl
    (timeout_s * 1000 + 1) 0 (by omega) hfuel
  have hjob2 : ¬ MCP.falsyStr sresp.job_id = true := by simp [hjob]
  simp only [Archive.execute_tool, hfind, if_pos hp, if_neg hjob2]
  rw [hloop]

/-- C3 witness: the spec's end-to-end scenario — `pending` on poll 1,
`completed` with payload `RESULT-XYZ` on poll 2, timeout 10 s — returns the
payload with one submission and two polls. -/
theorem C3_witness :
    Archive.execute_tool demo_arch_reg "t" 10 (Archive.SubmitStep.ok demo_job_resp)
        demo_poll_success = ⟨Archive.Outcome.ret (some "RESULT-XYZ"), 1, 2⟩ := by
  have h := C3_terminal_success demo_arch_reg "t" 10 demo_job_resp demo_poll_success
    demo_arch_entry 2 ⟨some "completed", some "RESULT-XYZ", none⟩ rfl (by decide)
    (by decide) (by decide) (by decide)
    (fun n h1 h2 => by
      have hn1 : n = 1 := by omega
      subst hn1
      exact ⟨⟨some "pending", none, none⟩, rfl, by decide, by decide⟩)
    rfl rfl (by decide)
  exact h

/-- C4 counterexample: one server named `My Srv` discovering three tools
that all carry the local name `a`.  The first registers as `a`; the second
collides and re-registers as `my_srv_a`; the third collides again, its
re-derived name `my_srv_a` also collides, and the dict assignment
overwrites the second tool's entry.  The final registry holds two entries
and the second discovered tool (`d2`) is registered under no display name —
refuting "each discovered tool is registered". -/
theorem C4_counterexample_overwrite :
    Cur.initialize_tools demo_cur_servers =
      [("a", ⟨demo_cur_server, demo_tool1, 1, "a"⟩),
        ("my_srv_a", ⟨demo_cur_server, demo_tool3, 1, "a"⟩)] ∧
    MCP.regFind? (Cur.initialize_tools demo_cur_servers) "a" ≠
      some ⟨demo_cur_server, demo_tool2, 1, "a"⟩ ∧
    MCP.regFind? (Cur.initialize_tools demo_cur_servers) "my_srv_a" ≠
      some ⟨demo_cur_server, demo_tool2, 1, "a"⟩ := by
  refine ⟨?_, ?_, ?_⟩ <;> decide

/-- C4 (corrected): after every run of `initialize_tools` no two registry
entries share a display name; every registry entry originates from a
discovered tool of one of the processed servers, its display name is the
tool's server-local name or, on collision, that name prefixed with the
lower-cased spaces-to-underscores server name, and the original local name
is recorded on the entry.  The universally quantified "each discovered tool
is registered" of the claim fails: when the re-derived name itself
collides, the later registration overwrites the earlier entry
(`C4_counterexample_overwrite`). -/
theorem C4_amended_registry_naming (servers : List (Cur.ServerConfig × Cur.Discovery)) :
    ((Cur.initialize_tools servers).map Prod.fst).Nodup ∧
    ∀ k e, MCP.regFind? (Cur.initialize_tools servers) k = some e →
      e.tool_info.tool_name = some e.original_tool_name ∧
      (k = e.original_tool_name ∨
        k = Cur.normalized_server_name e.server_config.name ++ "_" ++
          e.original_tool_name) ∧
      ∃ p ∈ servers, ∃ tools, p.2 = Cur.Discovery.ok tools ∧
        e.server_config = p.1 ∧ e.tool_info ∈ tools := by
  refine ⟨Cur.cur_nodup_initialize_tools servers, ?_⟩
  intro k e hfind
  obtain ⟨p, hp, tools, hdisc, t, ht, n, hn, hne, hb, hkey⟩ :=
    Cur.cur_mem_initialize_tools (MCP.regFind?_mem hfind)
  subst hb
  refine ⟨?_, ?_, p, hp, tools, hdisc, rfl, ?_⟩
  · simpa [Cur.mkEntry] using hn
  · simpa [Cur.mkEntry] using hkey
  · simpa [Cur.mkEntry] using ht

/-- C4 witness: in the colliding-server instance, the entry found under
`a` records original name `a`, satisfies the naming rule, and the registry
keys are distinct. -/
theorem C4_witness :
    MCP.regFind? (Cur.initialize_tools demo_cur_servers) "a" =
      some ⟨demo_cur_server, demo_tool1, 1, "a"⟩ ∧
    (⟨demo_cur_server, demo_tool1, 1, "a"⟩ : Cur.Entry).tool_info.tool_name =
      some "a" ∧
    ((Cur.initialize_tools demo_cur_servers).map Prod.fst).Nodup := by
  have h := C4_amended_registry_naming demo_cur_servers
  have h2 := h.2 "a" ⟨demo_cur_server, demo_tool1, 1, "a"⟩ (by decide)
  exact ⟨by decide, h2.1, h.1⟩

/-- The current `execute_tool` consults its handler only at the entry's
recorded original tool name: its whole behaviour equals that of a
one-entry registry holding the same entry under that original name. -/
theorem cur_execute_tool_entry_only {reg : List (String × Cur.Entry)}
    {h : String → Cur.HandlerStep} {name : String} {e : Cur.Entry}
    (hfind : MCP.regFind? reg name = some e) :
    Cur.execute_tool reg h name =
      Cur.execute_tool [(e.original_tool_name, e)] h e.original_tool_name := by
  have hsingle : MCP.regFind? [(e.original_tool_name, e)] e.original_tool_name =
      some e := by
    simp [MCP.regFind?]
  simp only [Cur.execute_tool, hfind, hsingle]

/-- The tool name passed to `handler.execute_tool` is the entry's recorded
`original_tool_name`, on every handler behaviour. -/
theorem cur_execute_tool_handler_called {reg : List (String × Cur.Entry)}
    {h : String → Cur.HandlerStep} {name : String} {e : Cur.Entry}
    (hfind : MCP.regFind? reg name = some e) :
    (Cur.execute_tool reg h name).handler_called = some e.original_tool_name := by
  simp only [Cur.execute_tool, hfind]
  cases hh : h e.original_tool_name with
  | exn m => rfl
  | ok r =>
    by_cases hs : r.status = some "success"
    · simp [hs]
    · simp [hs]

/-- C10 (confirmed): for every entry of an `initialize_tools` registry —
in particular one whose display name was re-derived after a collision —
`execute_tool` invokes the protocol handler with the recorded
server-local `original_tool_name`, never with the display name; the whole
call behaves exactly like a call on an uncollided one-entry registration of
the same tool, and the recorded original name is the discovered tool's
server-local name. -/
theorem C10_original_name_dispatch
    (servers : List (Cur.ServerConfig × Cur.Discovery)) (k : String) (e : Cur.Entry)
    (h : String → Cur.HandlerStep)
    (hfind : MCP.regFind? (Cur.initialize_tools servers) k = some e) :
    (Cur.execute_tool (Cur.initialize_tools servers) h k).handler_called =
      some e.original_tool_name ∧
    Cur.execute_tool (Cur.initialize_tools servers) h k =
      Cur.execute_tool [(e.original_tool_name, e)] h e.original_tool_name ∧
    e.tool_info.tool_name = some e.original_tool_name := by
  refine ⟨cur_execute_tool_handler_called hfind, cur_execute_tool_entry_only hfind, ?_⟩
  obtain ⟨p, hp, tools, hdisc, t, ht, n, hn, hne, hb, hkey⟩ :=
    Cur.cur_mem_initialize_tools (MCP.regFind?_mem hfind)
  subst hb
  simpa [Cur.mkEntry] using hn

/-- C10 witness: the collided registration `my_srv_a` of the instance is
executed with the original name `a` and behaves like the uncollided
one-entry registration. -/
theorem C10_witness :
    (Cur.execute_tool (Cur.initialize_tools demo_cur_servers) demo_echo_handler
        "my_srv_a").handler_called = some "a" ∧
    Cur.execute_tool (Cur.initialize_tools demo_cur_servers) demo_echo_handler
        "my_srv_a" =
      Cur.execute_tool [("a", ⟨demo_cur_server, demo_tool3, 1, "a"⟩)]
        demo_echo_handler "a" := by
  have h := C10_original_name_dispatch demo_cur_servers "my_srv_a"
    ⟨demo_cur_server, demo_tool3, 1, "a"⟩ demo_echo_handler (by decide)
  exact ⟨h.1, h.2.1⟩
